import Mathlib

/-!
Verification of the conversation & artifact correlation gateway:
the artifact path resolver, thread lifecycle state machine,
run-correlation store, streaming relay precondition, and ULID generator,
shallowly embedded from the Python source.
-/

/-! ## POSIX path model (pathlib)

A path is modelled by its list of name segments after `PurePosixPath`
normalisation (empty segments and `.` dropped, `..` kept), together with
a separate absoluteness test on the raw string.  `Path.resolve()` with no
symlinks is lexical normalisation: `..` pops the last segment (no-op at
the root of an absolute path). -/

/-- Split a character list at `/` separators. -/
def splitSegsAux : List Char → List Char → List (List Char)
  | [], cur => [cur.reverse]
  | c :: rest, cur =>
    if c = '/' then cur.reverse :: splitSegsAux rest []
    else splitSegsAux rest (c :: cur)

/-- `PurePosixPath(s).parts` without the root marker: split on `/`,
dropping empty segments and `.`. -/
def parseParts (s : String) : List String :=
  ((splitSegsAux s.data []).map (fun cs => String.mk cs)).filter
    (fun seg => seg ≠ "" ∧ seg ≠ ".")

/-- `PurePosixPath(s).is_absolute()`. -/
def isAbsolute (s : String) : Bool :=
  match s.data with
  | [] => false
  | c :: _ => c = '/'

/-- Lexical `Path.resolve()` on the segments of an absolute path:
`..` pops the previous segment (staying at the root when there is none). -/
def normSegs (segs : List String) : List String :=
  segs.foldl (fun acc seg => if seg = ".." then acc.dropLast else acc ++ [seg]) []

/-- `base_dir = (Path(storage_dir).resolve() / str(user_id)).resolve()`:
the per-owner sandbox root. -/
def baseDirSegs (storageDir userId : String) : List String :=
  normSegs (parseParts storageDir ++ [userId])

/-- `(Path(base) / p).resolve()`: an absolute `p` replaces the base,
otherwise the segments are appended; then normalise. -/
def resolveJoin (baseSegs : List String) (p : String) : List String :=
  if isAbsolute p then normSegs (parseParts p) else normSegs (baseSegs ++ parseParts p)

/-- `_resolve_artifact_path` from `app/api/routes/artifacts.py`:
`None` when `ARTIFACTS_STORAGE_DIR` is falsy; otherwise canonicalize
`base / artifact.path`, check it stays under the base via `relative_to`;
if a truthy `file_path` is given, reject absolute or `..`-containing
sub-paths, append, and re-check. -/
def resolveArtifactPath (storageDir : Option String) (userId artifactPath : String)
    (filePath : Option String) : Option (List String) :=
  match storageDir with
  | none => none
  | some sd =>
    if sd = "" then none
    else
      let baseDir := baseDirSegs sd userId
      let target := resolveJoin baseDir artifactPath
      if baseDir <+: target then
        match filePath with
        | none => some target
        | some fp =>
          if fp = "" then some target
          else if isAbsolute fp ∨ ".." ∈ parseParts fp then none
          else
            let target2 := normSegs (target ++ parseParts fp)
            if baseDir <+: target2 then some target2 else none
      else none

/-! ## Relational model of the gateway -/

/-- Error taxonomy of the route handlers (HTTP 404 / 409 / 400). -/
inductive HErr where
  | notFound
  | conflict
  | badRequest
deriving DecidableEq, Repr

def STATUS_ACTIVE : String := "active"
def STATUS_ARCHIVED : String := "archived"
def STATUS_DELETED : String := "deleted"

/-- `ConversationThread` row.  Datetimes are naive timestamps in
milliseconds; ids are opaque.  `metadata_` stands for the opaque JSON
`metadata` column. -/
structure Thread where
  thread_id : String
  user_id : String
  status : String
  title : Option String
  metadata_ : Option String
  created_at : Nat
  updated_at : Nat
deriving DecidableEq, Repr

/-- `chat_message` row. -/
structure ChatMessage where
  id : Nat
  thread_id : String
  user_id : String
  role : String
  content : String
  run_id : Option String
  created_at : Nat
deriving DecidableEq, Repr

/-- `artifact` row. -/
structure Artifact where
  id : Nat
  user_id : String
  thread_id : String
  run_id : Option String
  type_ : String
  path : String
  asset_id : String
  is_folder : Bool
  created_at : Nat
deriving DecidableEq, Repr

/-- The relational store, rows in insertion order. -/
structure Db where
  threads : List Thread
  messages : List ChatMessage
  artifacts : List Artifact
deriving DecidableEq, Repr

/-- `_get_thread`: the thread with this id owned by the caller,
excluding `deleted` rows unless `include_deleted`. -/
def getThreadDb (db : Db) (owner tid : String) (includeDeleted : Bool) :
    Option Thread :=
  db.threads.find? (fun t =>
    t.thread_id == tid && t.user_id == owner &&
      (includeDeleted || !(t.status == STATUS_DELETED)))

/-- `archive_thread` body after the (include-deleted) lookup:
409 unless the status is `active`; stamps `datetime.now()`. -/
def archiveThread (now : Nat) (t : Thread) : Except HErr Thread :=
  if t.status ≠ STATUS_ACTIVE then .error .conflict
  else .ok { t with status := STATUS_ARCHIVED, updated_at := now }

/-- `restore_thread` body: 409 unless the status is `archived`. -/
def restoreThread (now : Nat) (t : Thread) : Except HErr Thread :=
  if t.status ≠ STATUS_ARCHIVED then .error .conflict
  else .ok { t with status := STATUS_ACTIVE, updated_at := now }

/-- `delete_thread` body: 409 when already `deleted`. -/
def deleteThread (now : Nat) (t : Thread) : Except HErr Thread :=
  if t.status = STATUS_DELETED then .error .conflict
  else .ok { t with status := STATUS_DELETED, updated_at := now }

/-- `update_thread` body: apply only the supplied field
(`ConversationThreadUpdate` carries just `title`); an empty patch
(`exclude_unset` yields `{}`) commits nothing and leaves `updated_at`
alone; a non-empty one stamps `datetime.now()`. -/
def updateThread (patch : Option String) (now : Nat) (t : Thread) : Thread :=
  match patch with
  | none => t
  | some newTitle => { t with title := some newTitle, updated_at := now }

/-- Payload of `ChatMessageCreate`. -/
structure ChatMessageCreate where
  role : String
  content : String
  run_id : Option String
deriving DecidableEq, Repr

/-- `create_messages`: an empty payload returns `[]` before any lookup;
otherwise the thread is looked up (404 on miss, deleted excluded), rows
are inserted with server-assigned ids and the thread's `updated_at` is
stamped with `datetime.utcnow()`. -/
def createMessages (db : Db) (owner tid : String) (msgs : List ChatMessageCreate)
    (utcNow : Nat) (firstId : Nat) : Except HErr (List ChatMessage × Db) :=
  if msgs = [] then .ok ([], db)
  else
    match getThreadDb db owner tid false with
    | none => .error .notFound
    | some _ =>
      let newMsgs := msgs.enum.map (fun p =>
        ({ id := firstId + p.1, thread_id := tid, user_id := owner,
           role := p.2.role, content := p.2.content, run_id := p.2.run_id,
           created_at := utcNow } : ChatMessage))
      .ok (newMsgs,
        { db with
          messages := db.messages ++ newMsgs
          threads := db.threads.map (fun t =>
            if t.thread_id == tid && t.user_id == owner &&
                !(t.status == STATUS_DELETED)
            then { t with updated_at := utcNow } else t) })

/-- The JSON body `{message, user_id, thread_id}` sent to the upstream
agent endpoint. -/
structure AgentPayload where
  message : String
  user_id : String
  thread_id : String
deriving DecidableEq, Repr

/-- `chat_stream`: the thread lookup (404 on miss) runs before the
response generator ever opens the upstream connection; a returned
payload means an upstream call is opened with exactly these fields. -/
def chatStream (db : Db) (owner tid q : String) : Except HErr AgentPayload :=
  match getThreadDb db owner tid false with
  | none => .error .notFound
  | some _ => .ok ⟨q, owner, tid⟩

/-- One mutating route call on a thread.  All of them except
`insertMessages` stamp `datetime.now()`, the local clock, which reads
`instant + tzOffset` where `instant` is the UTC instant and `tzOffset`
the system timezone offset; `insertMessages` (`create_messages`) stamps
`datetime.utcnow()`, which reads `instant` itself. -/
inductive Mutation where
  | update (title : String)
  | archive
  | restore
  | softDelete
  | insertMessages
deriving DecidableEq, Repr

/-- Run one mutation at UTC instant `instant` under timezone offset
`tzOffset`, as the corresponding route body does. -/
def applyMutation (tzOffset instant : Nat) (m : Mutation) (t : Thread) :
    Except HErr Thread :=
  match m with
  | .update title => .ok (updateThread (some title) (instant + tzOffset) t)
  | .archive => archiveThread (instant + tzOffset) t
  | .restore => restoreThread (instant + tzOffset) t
  | .softDelete => deleteThread (instant + tzOffset) t
  | .insertMessages =>
    if t.status = STATUS_DELETED then .error .notFound
    else .ok { t with updated_at := instant }

/-- `dict.get(k, [])` over an insertion-ordered association table. -/
def dictGet (d : List (String × List Artifact)) (k : String) : List Artifact :=
  match d.find? (fun e => e.1 == k) with
  | some e => e.2
  | none => []

/-- `dict.setdefault(k, []).append(a)`: extend the first bucket with this
key, or add a fresh bucket at the end. -/
def dictAppend (d : List (String × List Artifact)) (k : String) (a : Artifact) :
    List (String × List Artifact) :=
  match d with
  | [] => [(k, [a])]
  | e :: rest =>
    if e.1 = k then (e.1, e.2 ++ [a]) :: rest else e :: dictAppend rest k a

/-- Body of the grouping loop of `get_messages`: artifacts with a falsy
`run_id` are skipped, the rest go into their run's bucket. -/
def groupStep (d : List (String × List Artifact)) (a : Artifact) :
    List (String × List Artifact) :=
  match a.run_id with
  | none => d
  | some r => if r = "" then d else dictAppend d r a

/-- Ascending `created_at`: the `ORDER BY` of the message query. -/
def msgCreatedLe (a b : ChatMessage) : Prop := a.created_at ≤ b.created_at

instance : DecidableRel msgCreatedLe :=
  fun a b => Nat.decLe a.created_at b.created_at

instance : IsTotal ChatMessage msgCreatedLe :=
  ⟨fun a b => Nat.le_total a.created_at b.created_at⟩

instance : IsTrans ChatMessage msgCreatedLe :=
  ⟨fun _ _ _ h1 h2 => Nat.le_trans h1 h2⟩

/-- The message query of `get_messages`: this thread's messages for
this owner, ordered by `created_at` ascending. -/
def threadMsgs (db : Db) (owner tid : String) : List ChatMessage :=
  List.insertionSort msgCreatedLe
    (db.messages.filter (fun m => m.thread_id == tid && m.user_id == owner))

/-- `run_ids = [m.run_id for m in messages if m.run_id]`: the truthy
(non-null, non-empty) run ids, in message order. -/
def truthyRunIds (msgs : List ChatMessage) : List String :=
  msgs.filterMap (fun m =>
    match m.run_id with
    | some r => if r = "" then none else some r
    | none => none)

/-- The artifact query of `get_messages`: this owner's artifacts of this
thread whose `run_id` is in the collected set (`NULL` never matches
`IN`). -/
def runArtifacts (db : Db) (owner tid : String) (runIds : List String) :
    List Artifact :=
  db.artifacts.filter (fun a =>
    a.user_id == owner && a.thread_id == tid &&
      (match a.run_id with
       | some r => runIds.contains r
       | none => false))

/-- `get_messages`: after the thread check, load the thread's messages,
collect the truthy `run_id`s, load the in-set artifacts, group them by
`run_id`, and pair every message with
`groups.get(message.run_id or "", [])`. -/
def getMessagesDb (db : Db) (owner tid : String) :
    Except HErr (List (ChatMessage × List Artifact)) :=
  match getThreadDb db owner tid false with
  | none => .error .notFound
  | some _ =>
    let msgs := threadMsgs db owner tid
    let byRun :=
      (runArtifacts db owner tid (truthyRunIds msgs)).foldl groupStep []
    .ok (msgs.map (fun m => (m, dictGet byRun (m.run_id.getD ""))))

/-- A thread `T` of owner `u` holding one message whose `run_id` is the
empty string and one artifact with the same empty-string `run_id`. -/
def c4EmptyRunMsg : ChatMessage := ⟨1, "T", "u", "user", "hi", some "", 10⟩

def c4EmptyRunArt : Artifact := ⟨1, "u", "T", some "", "file", "p", "a", false, 5⟩

def c4EmptyRunDb : Db :=
  ⟨[⟨"T", "u", "active", none, none, 0, 0⟩], [c4EmptyRunMsg], [c4EmptyRunArt]⟩

/-- A thread `T` of owner `u` with one message of run `r1`, one message
without a run, and one artifact of run `r1`. -/
def c4RunMsg : ChatMessage := ⟨1, "T", "u", "user", "hi", some "r1", 10⟩

def c4NoRunMsg : ChatMessage := ⟨2, "T", "u", "assistant", "yo", none, 20⟩

def c4RunArt : Artifact := ⟨1, "u", "T", some "r1", "file", "p", "a", false, 5⟩

def c4RunDb : Db :=
  ⟨[⟨"T", "u", "active", none, none, 0, 0⟩], [c4RunMsg, c4NoRunMsg], [c4RunArt]⟩

/-! ## Folder listing (`list_artifact_files`) -/

/-- Code-point lexicographic `≤` on character lists (Python's `str`
sort order). -/
def charListLe : List Char → List Char → Bool
  | [], _ => true
  | _ :: _, [] => false
  | a :: as, b :: bs =>
    if a.toNat < b.toNat then true
    else if b.toNat < a.toNat then false
    else charListLe as bs

/-- The sort key order of `files.sort(key=lambda item: item.name)`. -/
def fileNameLe (a b : String) : Prop := charListLe a.data b.data = true

instance : DecidableRel fileNameLe := fun a b =>
  instDecidableEqBool (charListLe a.data b.data) true

instance : IsTotal String fileNameLe :=
  ⟨fun x y => by
    show charListLe x.data y.data = true ∨ charListLe y.data x.data = true
    generalize x.data = as, y.data = bs
    induction as generalizing bs with
    | nil => left; rfl
    | cons a as ih =>
      cases bs with
      | nil => right; rfl
      | cons b bs =>
        unfold charListLe
        rcases Nat.lt_trichotomy a.toNat b.toNat with h | h | h
        · left; simp [h]
        · have h1 : ¬ a.toNat < b.toNat := by omega
          have h2 : ¬ b.toNat < a.toNat := by omega
          rcases ih bs with hc | hc
          · left; simp [h1, h2, hc]
          · right; simp [h1, h2, hc]
        · have h1 : ¬ a.toNat < b.toNat := by omega
          right; simp [h, h1]⟩

instance : IsTrans String fileNameLe :=
  ⟨fun x y z hxy hyz => by
    show charListLe x.data z.data = true
    revert hxy hyz
    show charListLe x.data y.data = true → charListLe y.data z.data = true →
      charListLe x.data z.data = true
    generalize x.data = as, y.data = bs, z.data = cs
    induction as generalizing bs cs with
    | nil => intro _ _; rfl
    | cons a as ih =>
      intro h1 h2
      cases bs with
      | nil => exact absurd h1 (by simp [charListLe])
      | cons b bs =>
        cases cs with
        | nil => exact absurd h2 (by simp [charListLe])
        | cons c cs =>
          unfold charListLe at h1 h2 ⊢
          by_cases hab : a.toNat < b.toNat
          · rw [if_pos hab] at h1
            by_cases hbc : b.toNat < c.toNat
            · rw [if_pos (show a.toNat < c.toNat by omega)]
            · rw [if_neg hbc] at h2
              by_cases hcb : c.toNat < b.toNat
              · rw [if_pos hcb] at h2; exact absurd h2 (by simp)
              · rw [if_pos (show a.toNat < c.toNat by omega)]
          · rw [if_neg hab] at h1
            by_cases hba : b.toNat < a.toNat
            · rw [if_pos hba] at h1; exact absurd h1 (by simp)
            · rw [if_neg hba] at h1
              by_cases hbc : b.toNat < c.toNat
              · rw [if_pos hbc] at h2
                rw [if_pos (show a.toNat < c.toNat by omega)]
              · rw [if_neg hbc] at h2
                by_cases hcb : c.toNat < b.toNat
                · rw [if_pos hcb] at h2; exact absurd h2 (by simp)
                · rw [if_neg hcb] at h2
                  rw [if_neg (show ¬ a.toNat < c.toNat by omega),
                    if_neg (show ¬ c.toNat < a.toNat by omega)]
                  exact ih bs cs h1 h2⟩

/-- A directory entry as seen by `Path.iterdir()`. -/
structure FsEntry where
  name : String
  isFile : Bool
deriving DecidableEq, Repr

/-- `str.startswith` / `str.endswith` (literal, no globbing). -/
def strStartsWith (s p : String) : Bool := p.data.isPrefixOf s.data

def strEndsWith (s p : String) : Bool := p.data.isSuffixOf s.data

/-- `if prefix and not name.startswith(prefix): continue` keeps a name
iff the prefix is falsy or matches. -/
def pfxOk (pfx : Option String) (name : String) : Bool :=
  match pfx with
  | some pf => pf == "" || strStartsWith name pf
  | none => true

def sfxOk (sfx : Option String) (name : String) : Bool :=
  match sfx with
  | some sf => sf == "" || strEndsWith name sf
  | none => true

/-- `list_artifact_files` after the ownership lookup, against a
filesystem `fs` giving the entries of an existing directory (`none`
where `is_dir()` is false): 400 for a non-folder artifact; 404 when the
resolver returns null or no directory exists; otherwise the immediate
file entries, filtered by literal prefix/suffix, sorted by name. -/
def listArtifactFiles (storageDir : Option String) (userId : String)
    (artifact : Artifact) (fs : List String → Option (List FsEntry))
    (pfx sfx : Option String) : Except HErr (List String) :=
  if !artifact.is_folder then .error .badRequest
  else
    match resolveArtifactPath storageDir userId artifact.path none with
    | none => .error .notFound
    | some p =>
      match fs p with
      | none => .error .notFound
      | some entries =>
        .ok (List.insertionSort fileNameLe
          ((entries.filter (fun e =>
            e.isFile && pfxOk pfx e.name && sfxOk sfx e.name)).map FsEntry.name))

def c9NonFolderArt : Artifact := ⟨1, "u", "T", none, "file", "doc.txt", "a", false, 0⟩

def c9FolderArt : Artifact := ⟨2, "u", "T", none, "folder", "docs", "a", true, 0⟩

def c9Entries : List FsEntry :=
  [⟨"b.txt", true⟩, ⟨"a.txt", true⟩, ⟨"sub", false⟩, ⟨"a.md", true⟩]

def c9Fs : List String → Option (List FsEntry) :=
  fun p => if p = ["data", "u", "docs"] then some c9Entries else none

/-! ## ULID generator (`app/core/ids.py`) -/

/-- `_CROCKFORD_ALPHABET`: 32 symbols, no I, L, O, U. -/
def crockfordAlphabet : List Char :=
  ['0', '1', '2', '3', '4', '5', '6', '7', '8', '9', 'A', 'B', 'C', 'D',
   'E', 'F', 'G', 'H', 'J', 'K', 'M', 'N', 'P', 'Q', 'R', 'S', 'T', 'V',
   'W', 'X', 'Y', 'Z']

/-- The encoding loop `value & 0x1F` / `value >>= 5`, run `k` times:
base-32 digits from the least significant up. -/
def digitsLE : Nat → Nat → List Nat
  | 0, _ => []
  | k + 1, v => v % 32 :: digitsLE k (v / 32)

/-- `generate_ulid` with the wall-clock milliseconds and the
`os.urandom(10)` value as inputs (the modulus renders the 10-byte
width): errors when the timestamp needs more than 48 bits, otherwise
packs `timestamp << 80 | randomness` and emits the 26 digits most
significant first (the code builds them low-first and reverses). -/
def generateUlid (timestampMs randomness : Nat) : Except String String :=
  if timestampMs ≥ 2 ^ 48 then .error "Timestamp out of range for ULID"
  else
    .ok (String.mk (((digitsLE 26 (timestampMs * 2 ^ 80 + randomness % 2 ^ 80)).map
      (fun d => crockfordAlphabet.getD d '0')).reverse))

/-- C1: whenever the resolver returns a path, the storage root was
configured and the returned (canonical) path is a descendant of the
canonical base directory `storage_root / owner_id`; and with the storage
root unconfigured the resolver returns null. -/
theorem resolver_stays_in_sandbox (storageDir : Option String) (uid apath : String)
    (fp : Option String) (p : List String)
    (h : resolveArtifactPath storageDir uid apath fp = some p) :
    (∃ sd, storageDir = some sd ∧ baseDirSegs sd uid <+: p) ∧
    (∀ uid2 apath2 fp2, resolveArtifactPath none uid2 apath2 fp2 = none) := by
  refine ⟨?_, fun _ _ _ => rfl⟩
  match storageDir with
  | none => exact absurd h (by simp [resolveArtifactPath])
  | some sd =>
    refine ⟨sd, rfl, ?_⟩
    unfold resolveArtifactPath at h
    simp only at h
    split at h
    · exact absurd h (by simp)
    · split at h
      · split at h
        · exact Option.some.inj h ▸ (by assumption)
        · split at h
          · exact Option.some.inj h ▸ (by assumption)
          · split at h
            · exact absurd h (by simp)
            · split at h
              · exact Option.some.inj h ▸ (by assumption)
              · exact absurd h (by simp)
      · exact absurd h (by simp)

/-- Witness for C1 at a concrete configuration and artifact. -/
theorem resolver_stays_in_sandbox_witness :
    (∃ sd, (some "/data" : Option String) = some sd ∧
      baseDirSegs sd "u1" <+: ["data", "u1", "report.txt"]) ∧
    (∀ uid2 apath2 fp2, resolveArtifactPath none uid2 apath2 fp2 = none) :=
  resolver_stays_in_sandbox (some "/data") "u1" "report.txt" none
    ["data", "u1", "report.txt"] (by decide)

/-- C2: whatever the stored artifact path (in particular one containing
`..` segments), a supplied sub-path that is absolute or contains a
parent-directory segment makes the resolver return null. -/
theorem resolver_rejects_bad_subpath (storageDir : Option String)
    (uid apath fp : String)
    (h1 : ".." ∈ parseParts apath)
    (h2 : isAbsolute fp ∨ ".." ∈ parseParts fp) :
    resolveArtifactPath storageDir uid apath (some fp) = none := by
  unfold resolveArtifactPath
  match storageDir with
  | none => rfl
  | some sd =>
    simp only
    split
    · rfl
    · split
      · have hfp : fp ≠ "" := by
          rintro rfl
          rcases h2 with h | h
          · exact absurd h (by decide)
          · exact absurd h (by decide)
        simp [hfp, h2]
      · rfl

/-- Witness for C2: a `..`-containing artifact path with an absolute
sub-path resolves to null. -/
theorem resolver_rejects_bad_subpath_witness :
    resolveArtifactPath (some "/data") "u1" "a/../b" (some "/etc/passwd") = none :=
  resolver_rejects_bad_subpath (some "/data") "u1" "a/../b" "/etc/passwd"
    (by decide) (Or.inl (by decide))

/-- C3: the lifecycle state machine has exactly the enumerated edges:
archive succeeds exactly from `active` (so a second consecutive archive
conflicts), restore exactly from `archived`, soft-delete from anything
but `deleted`, and `deleted` is terminal. -/
theorem thread_lifecycle_edges (t : Thread) (now : Nat) :
    (t.status = STATUS_ACTIVE →
      archiveThread now t =
        .ok { t with status := STATUS_ARCHIVED, updated_at := now }) ∧
    (t.status ≠ STATUS_ACTIVE → archiveThread now t = .error .conflict) ∧
    (t.status = STATUS_ARCHIVED →
      restoreThread now t =
        .ok { t with status := STATUS_ACTIVE, updated_at := now }) ∧
    (t.status ≠ STATUS_ARCHIVED → restoreThread now t = .error .conflict) ∧
    (t.status ≠ STATUS_DELETED →
      deleteThread now t =
        .ok { t with status := STATUS_DELETED, updated_at := now }) ∧
    (t.status = STATUS_DELETED → deleteThread now t = .error .conflict) := by
  refine ⟨fun h => ?_, fun h => ?_, fun h => ?_, fun h => ?_, fun h => ?_,
    fun h => ?_⟩ <;>
    simp [archiveThread, restoreThread, deleteThread, h]

/-- Witness for C3: archiving an active thread stamps `archived`. -/
theorem thread_lifecycle_edges_witness :
    archiveThread 5 ⟨"T", "u", "active", none, none, 0, 0⟩ =
      .ok ⟨"T", "u", "archived", none, none, 0, 5⟩ :=
  (thread_lifecycle_edges ⟨"T", "u", "active", none, none, 0, 0⟩ 5).1 rfl

/-- C5: the streaming relay opens an upstream call (carrying exactly the
query, caller id and thread id) iff an owned, non-deleted thread with
that id exists; otherwise it fails with NotFound before any upstream
connection. -/
theorem chat_stream_fail_fast (db : Db) (owner tid q : String) :
    (chatStream db owner tid q = .error .notFound ∨
      chatStream db owner tid q = .ok ⟨q, owner, tid⟩) ∧
    (chatStream db owner tid q = .ok ⟨q, owner, tid⟩ ↔
      ∃ t ∈ db.threads, t.thread_id = tid ∧ t.user_id = owner ∧
        t.status ≠ STATUS_DELETED) := by
  constructor
  · unfold chatStream
    cases getThreadDb db owner tid false with
    | none => exact Or.inl rfl
    | some t => exact Or.inr rfl
  · unfold chatStream
    constructor
    · intro h
      cases hf : getThreadDb db owner tid false with
      | none => rw [hf] at h; exact absurd h (by simp)
      | some t =>
        have hmem := List.mem_of_find?_eq_some hf
        have hp := List.find?_some hf
        simp only [Bool.and_eq_true, beq_iff_eq, Bool.or_eq_true,
          Bool.not_eq_true', beq_eq_false_iff_ne] at hp
        exact ⟨t, hmem, hp.1.1, hp.1.2, hp.2.resolve_left (by simp)⟩
    · rintro ⟨t, hmem, h1, h2, h3⟩
      cases hf : getThreadDb db owner tid false with
      | some t2 => rfl
      | none =>
        unfold getThreadDb at hf
        rw [List.find?_eq_none] at hf
        exact absurd (hf t hmem) (by simp [h1, h2, h3])

/-- C8: archiving an active thread and then restoring it returns the
thread to `active`, all other fields intact, with `updated_at` stamped
by the restore call and hence strictly greater than before either call
whenever the clock has advanced past the previous update. -/
theorem archive_restore_roundtrip (t : Thread) (t1 t2 : Nat)
    (hactive : t.status = STATUS_ACTIVE)
    (hclock : t.updated_at < t1) (hmono : t1 ≤ t2) :
    ∃ u, archiveThread t1 t = .ok u ∧
      restoreThread t2 u = .ok { t with status := STATUS_ACTIVE, updated_at := t2 } ∧
      t.updated_at < t2 := by
  refine ⟨{ t with status := STATUS_ARCHIVED, updated_at := t1 }, ?_, ?_, ?_⟩
  · simp [archiveThread, hactive]
  · simp [restoreThread]
  · exact Nat.lt_of_lt_of_le hclock hmono

/-- Witness for C8 on a concrete active thread. -/
theorem archive_restore_roundtrip_witness :
    ∃ u, archiveThread 1 ⟨"T", "u", "active", none, none, 0, 0⟩ = .ok u ∧
      restoreThread 2 u = .ok ⟨"T", "u", "active", none, none, 0, 2⟩ ∧
      (0 : Nat) < 2 :=
  archive_restore_roundtrip ⟨"T", "u", "active", none, none, 0, 0⟩ 1 2 rfl
    (by decide) (by decide)

/-- C10: recording an empty message batch returns the empty list and the
untouched store for every thread id — the early return precedes the
thread lookup, so no NotFound is possible and nothing changes. -/
theorem create_messages_empty_noop (db : Db) (owner tid : String)
    (utcNow firstId : Nat) :
    createMessages db owner tid [] utcNow firstId = .ok ([], db) := rfl

/-- C6 (failing part): mixing `datetime.now()` (thread mutations) with
`datetime.utcnow()` (message insertion) breaks monotonicity of
`updated_at` whenever the timezone offset is positive: under UTC+8 an
update at UTC instant 1000 followed by a message insertion at the later
UTC instant 2000 makes `updated_at` decrease. -/
theorem updated_at_clock_mix_bug :
    ∃ t1 t2 : Thread,
      applyMutation 28800000 1000 (.update "x")
        ⟨"T", "u", "active", none, none, 0, 0⟩ = .ok t1 ∧
      applyMutation 28800000 2000 .insertMessages t1 = .ok t2 ∧
      1000 < 2000 ∧ t2.updated_at < t1.updated_at :=
  ⟨⟨"T", "u", "active", some "x", none, 0, 28801000⟩,
   ⟨"T", "u", "active", some "x", none, 0, 2000⟩,
   rfl, rfl, by decide, by decide⟩

theorem dictGet_nil (r : String) : dictGet [] r = [] := rfl

theorem dictGet_cons (e : String × List Artifact) (d : List (String × List Artifact))
    (r : String) : dictGet (e :: d) r = if e.1 = r then e.2 else dictGet d r := by
  unfold dictGet
  by_cases h : e.1 = r
  · rw [List.find?_cons_of_pos _ (by simp [h])]
    simp [h]
  · rw [List.find?_cons_of_neg _ (by simp [h])]
    simp [h]

theorem dictGet_dictAppend (d : List (String × List Artifact)) (k : String)
    (a : Artifact) (r : String) :
    dictGet (dictAppend d k a) r =
      dictGet d r ++ (if k = r then [a] else []) := by
  induction d with
  | nil =>
    by_cases h : k = r <;>
      simp [dictAppend, dictGet_cons, dictGet_nil, h]
  | cons e rest ih =>
    unfold dictAppend
    by_cases he : e.1 = k
    · rw [if_pos he, dictGet_cons, dictGet_cons]
      by_cases hr : e.1 = r
      · rw [if_pos hr, if_pos hr, if_pos (he ▸ hr)]
      · rw [if_neg hr, if_neg hr, if_neg (fun hkr => hr (he.trans hkr)),
          List.append_nil]
    · rw [if_neg he, dictGet_cons, dictGet_cons, ih]
      by_cases hr : e.1 = r
      · rw [if_pos hr, if_pos hr, if_neg (fun hkr => he (hr.trans hkr.symm)),
          List.append_nil]
      · rw [if_neg hr, if_neg hr]

theorem dictGet_groupFold (arts : List Artifact)
    (d : List (String × List Artifact)) (r : String) (hr : r ≠ "") :
    dictGet (arts.foldl groupStep d) r =
      dictGet d r ++ arts.filter (fun a => a.run_id == some r) := by
  induction arts generalizing d with
  | nil => simp
  | cons a rest ih =>
    rw [List.foldl_cons, ih, List.filter_cons]
    cases ha : a.run_id with
    | none =>
      have hb : (a.run_id == some r) = false := by simp [ha]
      simp [groupStep, ha, hb]
    | some s =>
      by_cases hs : s = ""
      · subst hs
        have hb : (a.run_id == some r) = false := by simp [ha, Ne.symm hr]
        simp [groupStep, ha, hb, Ne.symm hr]
      · by_cases hsr : s = r
        · subst hsr
          have hb : (a.run_id == some s) = true := by simp [ha]
          simp [groupStep, ha, hs, hb, dictGet_dictAppend, List.append_assoc]
        · have hb : (a.run_id == some r) = false := by simp [ha, hsr]
          simp [groupStep, ha, hs, hb, hsr, dictGet_dictAppend]

theorem dictGet_groupFold_empty (arts : List Artifact)
    (d : List (String × List Artifact)) :
    dictGet (arts.foldl groupStep d) "" = dictGet d "" := by
  induction arts generalizing d with
  | nil => rfl
  | cons a rest ih =>
    rw [List.foldl_cons, ih]
    cases ha : a.run_id with
    | none => simp [groupStep, ha]
    | some s =>
      by_cases hs : s = ""
      · simp [groupStep, ha, hs]
      · simp [groupStep, ha, hs, dictGet_dictAppend]

theorem runArtifacts_filter (db : Db) (owner tid : String)
    (runIds : List String) (r : String) (hmem : r ∈ runIds) :
    (runArtifacts db owner tid runIds).filter (fun a => a.run_id == some r) =
      db.artifacts.filter (fun a =>
        a.user_id == owner && a.thread_id == tid && a.run_id == some r) := by
  unfold runArtifacts
  rw [List.filter_filter]
  apply List.filter_congr
  intro a _
  cases ha : a.run_id with
  | none => simp [ha]
  | some s =>
    by_cases hsr : s = r
    · subst hsr
      simp [ha, hmem]
    · have hb : (s == r) = false := beq_eq_false_iff_ne.mpr hsr
      simp [ha, hb]

/-- C4 counterexample: with a message whose `run_id` is the non-null
empty string and an artifact of the same owner, thread and `run_id`,
`get_messages` pairs the message with an empty list, not with the
artifacts sharing its `run_id` as the claim states. -/
theorem messages_nonnull_runid_counterexample :
    ∃ resp, getMessagesDb c4EmptyRunDb "u" "T" = .ok resp ∧
      ∃ p ∈ resp, p.1.run_id ≠ none ∧
        p.2 ≠ c4EmptyRunDb.artifacts.filter (fun a =>
          a.user_id == "u" && a.thread_id == "T" && a.run_id == p.1.run_id) := by
  refine ⟨[(c4EmptyRunMsg, [])], rfl, (c4EmptyRunMsg, []), by simp, by decide,
    by decide⟩

/-- C4 (amended): `get_messages` returns the thread's messages of this
owner sorted by creation time ascending, each message with a truthy
(non-null, non-empty) `run_id` paired with exactly the artifacts of the
same owner and thread sharing that `run_id`, and each message with a
null or empty `run_id` paired with the empty list. -/
theorem messages_with_artifacts_grouping (db : Db) (owner tid : String)
    (resp : List (ChatMessage × List Artifact))
    (h : getMessagesDb db owner tid = .ok resp) :
    List.Sorted msgCreatedLe (resp.map Prod.fst) ∧
    (resp.map Prod.fst).Perm
      (db.messages.filter (fun m => m.thread_id == tid && m.user_id == owner)) ∧
    ∀ p ∈ resp,
      p.2 = (match p.1.run_id with
        | some r =>
          if r = "" then []
          else db.artifacts.filter (fun a =>
            a.user_id == owner && a.thread_id == tid && a.run_id == some r)
        | none => []) := by
  unfold getMessagesDb at h
  cases hf : getThreadDb db owner tid false with
  | none => rw [hf] at h; exact absurd h (by simp)
  | some t =>
    rw [hf] at h
    simp only [Except.ok.injEq] at h
    subst h
    have hfst : ((threadMsgs db owner tid).map (fun m =>
        (m, dictGet ((runArtifacts db owner tid
            (truthyRunIds (threadMsgs db owner tid))).foldl groupStep [])
          (m.run_id.getD "")))).map Prod.fst = threadMsgs db owner tid := by
      rw [List.map_map]
      exact List.map_id _
    refine ⟨?_, ?_, ?_⟩
    · rw [hfst]
      exact List.sorted_insertionSort msgCreatedLe _
    · rw [hfst]
      exact List.perm_insertionSort msgCreatedLe _
    · intro p hp
      obtain ⟨m, hm, rfl⟩ := List.mem_map.mp hp
      dsimp only
      cases hmr : m.run_id with
      | none =>
        simp [hmr, dictGet_groupFold_empty, dictGet_nil]
      | some r =>
        by_cases hr : r = ""
        · subst hr
          simp [hmr, dictGet_groupFold_empty, dictGet_nil]
        · have hmemr : r ∈ truthyRunIds (threadMsgs db owner tid) :=
            List.mem_filterMap.mpr ⟨m, hm, by simp [hmr, hr]⟩
          simp only [Option.getD_some, if_neg hr]
          rw [dictGet_groupFold _ _ r hr, dictGet_nil, List.nil_append,
            runArtifacts_filter db owner tid _ r hmemr]

/-- Witness for the amended C4 on a thread with one run-tagged message,
one untagged message and one matching artifact. -/
theorem messages_with_artifacts_grouping_witness :
    List.Sorted msgCreatedLe
      (([(c4RunMsg, [c4RunArt]), (c4NoRunMsg, [])] :
        List (ChatMessage × List Artifact)).map Prod.fst) ∧
    (([(c4RunMsg, [c4RunArt]), (c4NoRunMsg, [])] :
        List (ChatMessage × List Artifact)).map Prod.fst).Perm
      (c4RunDb.messages.filter (fun m =>
        m.thread_id == "T" && m.user_id == "u")) ∧
    ∀ p ∈ ([(c4RunMsg, [c4RunArt]), (c4NoRunMsg, [])] :
        List (ChatMessage × List Artifact)),
      p.2 = (match p.1.run_id with
        | some r =>
          if r = "" then []
          else c4RunDb.artifacts.filter (fun a =>
            a.user_id == "u" && a.thread_id == "T" && a.run_id == some r)
        | none => []) :=
  messages_with_artifacts_grouping c4RunDb "u" "T"
    [(c4RunMsg, [c4RunArt]), (c4NoRunMsg, [])] rfl

/-- C9 counterexample: a non-folder artifact makes the folder listing
fail with BadRequest (HTTP 400), not NotFound as the claim states. -/
theorem folder_listing_nonfolder_counterexample :
    listArtifactFiles (some "/data") "u" c9NonFolderArt c9Fs none none =
      .error .badRequest ∧
    listArtifactFiles (some "/data") "u" c9NonFolderArt c9Fs none none ≠
      .error .notFound := by
  refine ⟨rfl, fun h => ?_⟩
  rw [show listArtifactFiles (some "/data") "u" c9NonFolderArt c9Fs none none =
    .error .badRequest from rfl] at h
  exact absurd (Except.error.inj h) (by decide)

/-- C9 (amended): folder listing fails with BadRequest when the artifact
is not a folder and with NotFound when resolution fails or no directory
exists; on success it returns exactly the immediate file entries of the
resolved directory (directories excluded), filtered by literal filename
prefix and suffix, sorted lexicographically by name. -/
theorem folder_listing_spec (storageDir : Option String) (uid : String)
    (artifact : Artifact) (fs : List String → Option (List FsEntry))
    (pfx sfx : Option String) :
    (artifact.is_folder = false →
      listArtifactFiles storageDir uid artifact fs pfx sfx = .error .badRequest) ∧
    (artifact.is_folder = true →
      resolveArtifactPath storageDir uid artifact.path none = none →
      listArtifactFiles storageDir uid artifact fs pfx sfx = .error .notFound) ∧
    (∀ p, artifact.is_folder = true →
      resolveArtifactPath storageDir uid artifact.path none = some p →
      fs p = none →
      listArtifactFiles storageDir uid artifact fs pfx sfx = .error .notFound) ∧
    (∀ p entries, artifact.is_folder = true →
      resolveArtifactPath storageDir uid artifact.path none = some p →
      fs p = some entries →
      ∃ l, listArtifactFiles storageDir uid artifact fs pfx sfx = .ok l ∧
        List.Sorted fileNameLe l ∧
        l.Perm ((entries.filter (fun e =>
          e.isFile && pfxOk pfx e.name && sfxOk sfx e.name)).map FsEntry.name)) := by
  refine ⟨fun hf => ?_, fun hf hr => ?_, fun p hf hr hfs => ?_,
    fun p entries hf hr hfs => ?_⟩
  · simp [listArtifactFiles, hf]
  · simp [listArtifactFiles, hf, hr]
  · simp [listArtifactFiles, hf, hr, hfs]
  · refine ⟨List.insertionSort fileNameLe ((entries.filter (fun e =>
        e.isFile && pfxOk pfx e.name && sfxOk sfx e.name)).map FsEntry.name),
      ?_, ?_, ?_⟩
    · simp [listArtifactFiles, hf, hr, hfs]
    · exact List.sorted_insertionSort fileNameLe _
    · exact List.perm_insertionSort fileNameLe _

/-- Witness for the amended C9: listing a concrete folder with a `.txt`
suffix filter. -/
theorem folder_listing_spec_witness :
    ∃ l, listArtifactFiles (some "/data") "u" c9FolderArt c9Fs none (some ".txt") =
        .ok l ∧
      List.Sorted fileNameLe l ∧
      l.Perm ((c9Entries.filter (fun e =>
        e.isFile && pfxOk none e.name && sfxOk (some ".txt") e.name)).map
          FsEntry.name) :=
  (folder_listing_spec (some "/data") "u" c9FolderArt c9Fs none
    (some ".txt")).2.2.2 ["data", "u", "docs"] c9Entries rfl rfl rfl

theorem crock_mono : ∀ i < 32, ∀ j < 32, i < j →
    crockfordAlphabet.getD i '0' < crockfordAlphabet.getD j '0' := by decide

theorem crock_mem : ∀ d, d < 32 → crockfordAlphabet.getD d '0' ∈ crockfordAlphabet := by
  decide

theorem digitsLE_length : ∀ k v, (digitsLE k v).length = k := by
  intro k
  induction k with
  | zero => intro v; rfl
  | succ k ih => intro v; simp [digitsLE, ih]

theorem digitsLE_mem_lt : ∀ k v d, d ∈ digitsLE k v → d < 32 := by
  intro k
  induction k with
  | zero => intro v d h; exact absurd h (by simp [digitsLE])
  | succ k ih =>
    intro v d h
    rw [digitsLE] at h
    rcases List.mem_cons.mp h with h | h
    · exact h ▸ Nat.mod_lt _ (by omega)
    · exact ih _ _ h

theorem digitsLE_append : ∀ b v, digitsLE (b + 10) v =
    digitsLE b v ++ digitsLE 10 (v / 32 ^ b) := by
  intro b
  induction b with
  | zero => intro v; simp [digitsLE]
  | succ b ih =>
    intro v
    have h1 : b + 1 + 10 = (b + 10) + 1 := by omega
    rw [h1]
    show v % 32 :: digitsLE (b + 10) (v / 32) =
      digitsLE (b + 1) v ++ digitsLE 10 (v / 32 ^ (b + 1))
    rw [ih (v / 32)]
    show v % 32 :: (digitsLE b (v / 32) ++ digitsLE 10 (v / 32 / 32 ^ b)) =
      (v % 32 :: digitsLE b (v / 32)) ++ digitsLE 10 (v / 32 ^ (b + 1))
    rw [List.cons_append, Nat.div_div_eq_div_mul, ← pow_succ']

theorem lex_append {α : Type} {r : α → α → Prop} :
    ∀ {l1 l2 : List α}, List.Lex r l1 l2 → l1.length = l2.length →
    ∀ (s1 s2 : List α), List.Lex r (l1 ++ s1) (l2 ++ s2) := by
  intro l1 l2 h
  induction h with
  | nil => intro hlen; simp at hlen
  | rel hab => intro _ s1 s2; exact List.Lex.rel hab
  | cons h ih =>
    intro hlen s1 s2
    exact List.Lex.cons (ih (by simpa using hlen) s1 s2)

theorem lex_append_last {α : Type} {r : α → α → Prop} (l : List α) {a b : α}
    (h : r a b) : List.Lex r (l ++ [a]) (l ++ [b]) := by
  induction l with
  | nil => exact List.Lex.rel h
  | cons x xs ih => exact List.Lex.cons ih

theorem digitsLE_rev_lex : ∀ k t1 t2, t1 < 32 ^ k → t2 < 32 ^ k → t1 < t2 →
    List.Lex (· < ·) (digitsLE k t1).reverse (digitsLE k t2).reverse := by
  intro k
  induction k with
  | zero => intro t1 t2 h1 h2 h; omega
  | succ k ih =>
    intro t1 t2 h1 h2 hlt
    simp only [digitsLE, List.reverse_cons]
    rcases Nat.lt_or_ge (t1 / 32) (t2 / 32) with hd | hd
    · refine lex_append (ih (t1 / 32) (t2 / 32) ?_ ?_ hd)
        (by simp [digitsLE_length]) _ _
      · rw [Nat.div_lt_iff_lt_mul (by omega)]
        rw [pow_succ] at h1
        exact h1
      · rw [Nat.div_lt_iff_lt_mul (by omega)]
        rw [pow_succ] at h2
        exact h2
    · have hdeq : t1 / 32 = t2 / 32 :=
        Nat.le_antisymm (Nat.div_le_div_right (Nat.le_of_lt hlt)) hd
      have hm : t1 % 32 < t2 % 32 := by
        have e1 := Nat.div_add_mod t1 32
        have e2 := Nat.div_add_mod t2 32
        omega
      rw [hdeq]
      exact lex_append_last _ hm

theorem lex_map_crock : ∀ l1 l2 : List Nat, List.Lex (· < ·) l1 l2 →
    (∀ d ∈ l1, d < 32) → (∀ d ∈ l2, d < 32) →
    List.Lex (· < ·) (l1.map (fun d => crockfordAlphabet.getD d '0'))
      (l2.map (fun d => crockfordAlphabet.getD d '0')) := by
  intro l1 l2 h
  induction h with
  | nil => intro _ _; exact List.Lex.nil
  | @rel a as b bs hab =>
    intro hb1 hb2
    exact List.Lex.rel
      (crock_mono a (hb1 a (List.mem_cons_self a as)) b
        (hb2 b (List.mem_cons_self b bs)) hab)
  | @cons a as bs h ih =>
    intro hb1 hb2
    exact List.Lex.cons
      (ih (fun d hd => hb1 d (List.mem_cons_of_mem a hd))
        (fun d hd => hb2 d (List.mem_cons_of_mem a hd)))

theorem ulid_value_div (ts r : Nat) :
    (ts * 2 ^ 80 + r % 2 ^ 80) / 32 ^ 16 = ts := by
  have h32 : (32 : ℕ) ^ 16 = 2 ^ 80 := by norm_num
  rw [h32, mul_comm ts, Nat.mul_add_div (by positivity),
    Nat.div_eq_of_lt (Nat.mod_lt _ (by positivity)), Nat.add_zero]

theorem ulid_leading_chars (ts r : Nat) :
    ((((digitsLE 26 (ts * 2 ^ 80 + r % 2 ^ 80)).map
      (fun d => crockfordAlphabet.getD d '0')).reverse).take 10) =
    ((digitsLE 10 ts).map (fun d => crockfordAlphabet.getD d '0')).reverse := by
  rw [show (26 : ℕ) = 16 + 10 from rfl, digitsLE_append 16, ulid_value_div,
    List.map_append, List.reverse_append]
  have hlen : (((digitsLE 10 ts).map
      (fun d => crockfordAlphabet.getD d '0')).reverse).length = 10 := by
    simp [digitsLE_length]
  rw [List.take_left' hlen]

/-- C7: for timestamps below `2^48` ms the generator returns a
26-character string over the 32-symbol Crockford alphabet (no I, L, O,
U) whose 10-character timestamp prefix is equal for equal timestamps
and strictly lexicographically smaller for smaller timestamps; at or
above `2^48` ms it fails with the out-of-range error. -/
theorem ulid_spec (ts1 ts2 r1 r2 : Nat) :
    (2 ^ 48 ≤ ts1 → generateUlid ts1 r1 = .error "Timestamp out of range for ULID") ∧
    (ts1 < 2 ^ 48 →
      ∃ s, generateUlid ts1 r1 = .ok s ∧ s.length = 26 ∧
        (∀ c ∈ s.data, c ∈ crockfordAlphabet) ∧
        crockfordAlphabet.length = 32 ∧
        'I' ∉ crockfordAlphabet ∧ 'L' ∉ crockfordAlphabet ∧
        'O' ∉ crockfordAlphabet ∧ 'U' ∉ crockfordAlphabet) ∧
    (ts1 < 2 ^ 48 → ts2 < 2 ^ 48 →
      ∀ s1 s2, generateUlid ts1 r1 = .ok s1 → generateUlid ts2 r2 = .ok s2 →
        (ts1 = ts2 → s1.data.take 10 = s2.data.take 10) ∧
        (ts1 < ts2 → List.Lex (· < ·) (s1.data.take 10) (s2.data.take 10))) := by
  refine ⟨fun h => ?_, fun h => ?_, fun h1 h2 s1 s2 hs1 hs2 => ?_⟩
  · unfold generateUlid
    rw [if_pos h]
  · have hg : ¬ (ts1 ≥ 2 ^ 48) := by omega
    refine ⟨String.mk (((digitsLE 26 (ts1 * 2 ^ 80 + r1 % 2 ^ 80)).map
        (fun d => crockfordAlphabet.getD d '0')).reverse),
      by unfold generateUlid; rw [if_neg hg], ?_, ?_, by decide, by decide,
      by decide, by decide, by decide⟩
    · show (((digitsLE 26 (ts1 * 2 ^ 80 + r1 % 2 ^ 80)).map
        (fun d => crockfordAlphabet.getD d '0')).reverse).length = 26
      simp [digitsLE_length]
    · intro c hc
      have hc2 : c ∈ ((digitsLE 26 (ts1 * 2 ^ 80 + r1 % 2 ^ 80)).map
          (fun d => crockfordAlphabet.getD d '0')).reverse := hc
      rw [List.mem_reverse] at hc2
      obtain ⟨d, hd, rfl⟩ := List.mem_map.mp hc2
      exact crock_mem d (digitsLE_mem_lt _ _ _ hd)
  · have hg1 : ¬ (ts1 ≥ 2 ^ 48) := by omega
    have hg2 : ¬ (ts2 ≥ 2 ^ 48) := by omega
    unfold generateUlid at hs1 hs2
    rw [if_neg hg1] at hs1
    rw [if_neg hg2] at hs2
    have e1 := (Except.ok.inj hs1).symm
    have e2 := (Except.ok.inj hs2).symm
    subst e1
    subst e2
    constructor
    · intro heq
      subst heq
      show ((((digitsLE 26 (ts1 * 2 ^ 80 + r1 % 2 ^ 80)).map
          (fun d => crockfordAlphabet.getD d '0')).reverse).take 10) =
        ((((digitsLE 26 (ts1 * 2 ^ 80 + r2 % 2 ^ 80)).map
          (fun d => crockfordAlphabet.getD d '0')).reverse).take 10)
      rw [ulid_leading_chars ts1 r1, ulid_leading_chars ts1 r2]
    · intro hlt
      show List.Lex (· < ·)
        ((((digitsLE 26 (ts1 * 2 ^ 80 + r1 % 2 ^ 80)).map
          (fun d => crockfordAlphabet.getD d '0')).reverse).take 10)
        ((((digitsLE 26 (ts2 * 2 ^ 80 + r2 % 2 ^ 80)).map
          (fun d => crockfordAlphabet.getD d '0')).reverse).take 10)
      rw [ulid_leading_chars ts1 r1, ulid_leading_chars ts2 r2, ← List.map_reverse,
        ← List.map_reverse]
      have hb48 : (2 : ℕ) ^ 48 < 32 ^ 10 := by norm_num
      refine lex_map_crock _ _
        (digitsLE_rev_lex 10 ts1 ts2 (by omega) (by omega) hlt) ?_ ?_
      · intro d hd
        rw [List.mem_reverse] at hd
        exact digitsLE_mem_lt _ _ _ hd
      · intro d hd
        rw [List.mem_reverse] at hd
        exact digitsLE_mem_lt _ _ _ hd

/-- Witness for C7 at timestamps `2^48`, 0 and 1. -/
theorem ulid_spec_witness :
    generateUlid (2 ^ 48) 0 = .error "Timestamp out of range for ULID" ∧
    (∃ s, generateUlid 0 0 = .ok s ∧ s.length = 26 ∧
      (∀ c ∈ s.data, c ∈ crockfordAlphabet) ∧ crockfordAlphabet.length = 32 ∧
      'I' ∉ crockfordAlphabet ∧ 'L' ∉ crockfordAlphabet ∧
      'O' ∉ crockfordAlphabet ∧ 'U' ∉ crockfordAlphabet) ∧
    List.Lex (· < ·)
      (("00000000000000000000000000" : String).data.take 10)
      (("00000000010000000000000000" : String).data.take 10) :=
  ⟨(ulid_spec (2 ^ 48) 0 0 0).1 (Nat.le_refl _),
   (ulid_spec 0 0 0 0).2.1 (by decide),
   ((ulid_spec 0 1 0 0).2.2 (by decide) (by decide)
     "00000000000000000000000000" "00000000010000000000000000"
     rfl rfl).2 (by decide)⟩
